import Mathlib

/-!
# Verification of the `linux-embedded-hal` SPI transfer planner

Shallow embedding of `src/spi.rs`: the `embedded-hal` SPI bus/device
implementation backed by the `spidev` transport.  Caller buffers are
modelled as an explicit memory (`Mem`) mapping buffer identifiers to byte
lists; a Rust slice of a whole caller buffer is a buffer identifier, and
sub-slices taken inside the planner are recorded as (buffer, offset,
length) views.  A `spidev::SpidevTransfer` descriptor is a record with an
optional write source, an optional read target and an optional delay
duration, built through the four constructor functions the source uses
(`read`, `write`, `read_write`, `delay`).

A write source is either `owned` (a copied byte vector, as produced by
`words.to_owned()` in `transfer_in_place`) or a `slice` view borrowing a
caller buffer (as produced by passing `&write[..n]` etc., and by the
`unsafe` raw-pointer alias in the transaction `TransferInPlace` arm).
-/

namespace LinuxEmbeddedHal

/-- Identifier of one caller-owned byte buffer. -/
abbrev BufId := Nat

/-- The caller's buffers: contents of each buffer identifier. -/
abbrev Mem := BufId → List Nat

/-- A descriptor's write source: an owned copy of bytes, or a borrowed view
`(buffer, offset, length)` of a caller buffer resolved at submission time. -/
inductive TxRef where
  | owned (bytes : List Nat)
  | slice (buf : BufId) (off len : Nat)
deriving DecidableEq

/-- A descriptor's read target: the region `(buffer, offset, length)` the
transport stores captured bytes into. -/
structure RxRef where
  buf : BufId
  off : Nat
  len : Nat
deriving DecidableEq

/-- `spidev::SpidevTransfer`: one hardware transfer descriptor, with an
optional write source, optional read target and optional delay duration
(the external collaborator contract of spec §6). -/
structure SpidevTransfer where
  tx : Option TxRef
  rx : Option RxRef
  delayUsecs : Option Nat
deriving DecidableEq

/-- `SpidevTransfer::read`: read-only descriptor. -/
def SpidevTransfer.read (rx : RxRef) : SpidevTransfer :=
  ⟨none, some rx, none⟩

/-- `SpidevTransfer::write`: write-only descriptor. -/
def SpidevTransfer.write (tx : TxRef) : SpidevTransfer :=
  ⟨some tx, none, none⟩

/-- `SpidevTransfer::read_write`: full-duplex descriptor. -/
def SpidevTransfer.read_write (tx : TxRef) (rx : RxRef) : SpidevTransfer :=
  ⟨some tx, some rx, none⟩

/-- `SpidevTransfer::delay`: delay-only descriptor. -/
def SpidevTransfer.delay (us : Nat) : SpidevTransfer :=
  ⟨none, none, some us⟩

/-- `embedded_hal::spi::Operation`: one operation of a device transaction.
Each buffer argument is the identifier of the whole caller slice passed in;
its length is that of its contents in `Mem`. -/
inductive SpiOperation where
  | read (buf : BufId)
  | write (buf : BufId)
  | transfer (r : BufId) (w : BufId)
  | transferInPlace (buf : BufId)
  | delayUs (us : Nat)
deriving DecidableEq

/-- `u16::try_from` on a `u32` value: succeeds exactly when the value fits
in 16 bits. -/
def u16_try_from (n : Nat) : Option Nat :=
  if n ≤ 65535 then some n else none

/-- `SpiBus::transfer` (src/spi.rs lines 67–86): the three-way split on
`read_len.cmp(&write.len())` producing the descriptor list handed to
`transfer_multiple` / `transfer`. -/
def SpiBus.transfer (mem : Mem) (read : BufId) (write : BufId) : List SpidevTransfer :=
  let read_len := (mem read).length
  let write_len := (mem write).length
  match compare read_len write_len with
  | .lt =>
      [SpidevTransfer.read_write (.slice write 0 read_len) ⟨read, 0, read_len⟩,
       SpidevTransfer.write (.slice write read_len (write_len - read_len))]
  | .eq =>
      [SpidevTransfer.read_write (.slice write 0 write_len) ⟨read, 0, read_len⟩]
  | .gt =>
      [SpidevTransfer.read_write (.slice write 0 write_len) ⟨read, 0, write_len⟩,
       SpidevTransfer.read ⟨read, write_len, read_len - write_len⟩]

/-- `SpiBus::transfer_in_place` (src/spi.rs lines 88–93): copies the buffer
contents (`words.to_owned()`) into an owned transmit source and duplexes it
against the original buffer. -/
def SpiBus.transfer_in_place (mem : Mem) (words : BufId) : List SpidevTransfer :=
  let tx := mem words
  [SpidevTransfer.read_write (.owned tx) ⟨words, 0, (mem words).length⟩]

/-- One iteration of the `for op in operations` loop of
`SpiDevice::transaction` (src/spi.rs lines 111–141): the descriptors pushed
for a single operation. -/
def transaction_op (mem : Mem) (op : SpiOperation) : List SpidevTransfer :=
  match op with
  | .read buf => [SpidevTransfer.read ⟨buf, 0, (mem buf).length⟩]
  | .write buf => [SpidevTransfer.write (.slice buf 0 (mem buf).length)]
  | .transfer r w =>
      match compare (mem r).length (mem w).length with
      | .lt =>
          let n := (mem r).length
          [SpidevTransfer.read_write (.slice w 0 n) ⟨r, 0, n⟩,
           SpidevTransfer.write (.slice w n ((mem w).length - n))]
      | .eq =>
          [SpidevTransfer.read_write (.slice w 0 (mem w).length) ⟨r, 0, (mem r).length⟩]
      | .gt =>
          [SpidevTransfer.read_write (.slice w 0 (mem w).length) ⟨r, 0, (mem w).length⟩,
           SpidevTransfer.read ⟨r, (mem w).length, (mem r).length - (mem w).length⟩]
  | .transferInPlace buf =>
      [SpidevTransfer.read_write (.slice buf 0 (mem buf).length) ⟨buf, 0, (mem buf).length⟩]
  | .delayUs us =>
      [SpidevTransfer.delay ((u16_try_from us).getD 65535)]

/-- The full descriptor vector `transfers` assembled by
`SpiDevice::transaction` before submission. -/
def transaction_transfers (mem : Mem) (ops : List SpiOperation) : List SpidevTransfer :=
  (ops.map (transaction_op mem)).flatten

/-- An underlying transport I/O failure (`std::io::Error`), opaque. -/
abbrev IoError := Nat

/-- `SPIError` (src/spi.rs lines 151–154): wraps exactly one underlying
transport I/O failure. -/
structure SPIError where
  err : IoError
deriving DecidableEq

/-- `SPIError::inner`: exposes the wrapped transport failure. -/
def SPIError.inner (e : SPIError) : IoError := e.err

/-- `embedded_hal::spi::ErrorKind`: the generic SPI error taxonomy. -/
inductive ErrorKind where
  | overrun
  | modeFault
  | frameFormat
  | chipSelectFault
  | other
deriving DecidableEq

/-- `embedded_hal::spi::Error::kind` for `SPIError` (src/spi.rs lines
170–177): always the opaque `Other` kind. -/
def SPIError.kind (_ : SPIError) : ErrorKind := ErrorKind.other

/-- `std::error::Error::source` for `SPIError`: always `Some(&self.err)`. -/
def SPIError.errSource (e : SPIError) : Option IoError := some e.err

/-- The underlying `spidev` transport, abstracted by its observable
results: the outcome of one atomic `transfer_multiple` submission of a
descriptor list, and the outcome of `flush`. -/
structure Transport where
  submit : List SpidevTransfer → Except IoError Unit
  flushResult : Except IoError Unit

/-- One call made on the transport handle. -/
inductive TransportCall where
  | submit (ts : List SpidevTransfer)
  | flush
deriving DecidableEq

/-- `SpiDevice::transaction` (src/spi.rs lines 107–147): assembles all
descriptors, submits them in one `transfer_multiple` call, then flushes;
each `?` propagates the wrapped error.  Returns the list of transport calls
made and the call's result. -/
def SpiDevice.transaction (t : Transport) (mem : Mem) (ops : List SpiOperation) :
    List TransportCall × Except SPIError Unit :=
  let transfers := transaction_transfers mem ops
  match t.submit transfers with
  | .error e => ([.submit transfers], .error ⟨e⟩)
  | .ok _ =>
      match t.flushResult with
      | .error e => ([.submit transfers, .flush], .error ⟨e⟩)
      | .ok _ => ([.submit transfers, .flush], .ok ())

/-- A descriptor has at least one of its read target, write source or delay
duration populated. -/
def populated (d : SpidevTransfer) : Bool :=
  d.tx.isSome || d.rx.isSome || d.delayUsecs.isSome

/-- Bytes of the view `(buf, off, len)` of the caller's memory. -/
def sliceOf (mem : Mem) (b off len : Nat) : List Nat :=
  ((mem b).drop off).take len

/-- The bytes a write source denotes in a given memory state. -/
def resolveTx (mem : Mem) : TxRef → List Nat
  | .owned bytes => bytes
  | .slice b off len => sliceOf mem b off len

/-- Whether a descriptor's write source is a borrowed view whose region
overlaps its read-target region in the same buffer — "overlapping
read/write regions that alias the same memory within one descriptor", the
descriptor form the transport contract does not support (spec §4.1).  An
owned write source never aliases. -/
def txAliasesRx (d : SpidevTransfer) : Bool :=
  match d.tx, d.rx with
  | some (.slice b off len), some rx =>
      b == rx.buf && decide (off < rx.off + rx.len) && decide (rx.off < off + len)
  | _, _ => false

/-- Whether an operation is a `Transfer` whose read and write lengths
differ. -/
def isUnequalTransfer (mem : Mem) : SpiOperation → Bool
  | .transfer r w => decide ((mem r).length ≠ (mem w).length)
  | _ => false

/-- Number of `Transfer` operations whose read and write lengths differ. -/
def unequalTransferCount (mem : Mem) (ops : List SpiOperation) : Nat :=
  ops.countP (isUnequalTransfer mem)

/-- A concrete memory for witnesses: buffer 0 holds 3 bytes, buffer 1 holds
5 bytes, buffer 2 holds 3 bytes. -/
def memW : Mem := fun b =>
  if b = 0 then [1, 2, 3] else if b = 1 then [4, 5, 6, 7, 8] else if b = 2 then [9, 8, 7] else []

/-- A transport whose atomic submission always fails with I/O error 7 and
whose flush succeeds. -/
def tFail : Transport := ⟨fun _ => .error 7, .ok ()⟩

/-- A transport on which every call succeeds. -/
def tOk : Transport := ⟨fun _ => .ok (), .ok ()⟩

/-- The `Transfer` arm of the transaction loop builds exactly the
descriptors of the bus-level `transfer` entry point (shared helper). -/
theorem transaction_op_transfer_eq (mem : Mem) (r w : BufId) :
    transaction_op mem (.transfer r w) = SpiBus.transfer mem r w := by
  simp only [transaction_op, SpiBus.transfer]

/-- Every descriptor pushed for a single transaction operation has a
populated field (shared helper). -/
theorem transaction_op_populated (mem : Mem) (op : SpiOperation) :
    ∀ d ∈ transaction_op mem op, populated d = true := by
  cases op with
  | transfer r w =>
      cases h : compare (mem r).length (mem w).length <;>
        simp [transaction_op, h, populated, SpidevTransfer.read, SpidevTransfer.write,
          SpidevTransfer.read_write]
  | read buf => simp [transaction_op, populated, SpidevTransfer.read]
  | write buf => simp [transaction_op, populated, SpidevTransfer.write]
  | transferInPlace buf => simp [transaction_op, populated, SpidevTransfer.read_write]
  | delayUs us => simp [transaction_op, populated, SpidevTransfer.delay]

/-- The length of the descriptor list of a single transaction operation
(shared helper). -/
theorem transaction_op_length (mem : Mem) (op : SpiOperation) :
    (transaction_op mem op).length = if isUnequalTransfer mem op then 2 else 1 := by
  cases op with
  | transfer r w =>
      rcases Nat.lt_trichotomy (mem r).length (mem w).length with h | h | h
      · simp [transaction_op, Nat.compare_eq_lt.mpr h, isUnequalTransfer, Nat.ne_of_lt h]
      · simp [transaction_op, Nat.compare_eq_eq.mpr h, isUnequalTransfer, h,
          Nat.compare_eq_eq.mpr (rfl : (mem w).length = (mem w).length)]
      · simp [transaction_op, Nat.compare_eq_gt.mpr h, isUnequalTransfer, Nat.ne_of_gt h]
  | read buf => simp [transaction_op, isUnequalTransfer]
  | write buf => simp [transaction_op, isUnequalTransfer]
  | transferInPlace buf => simp [transaction_op, isUnequalTransfer]
  | delayUs us => simp [transaction_op, isUnequalTransfer]

/-- The transaction descriptor list splits at any operation-list split
(shared helper). -/
theorem transaction_transfers_append (mem : Mem) (ops1 ops2 : List SpiOperation) :
    transaction_transfers mem (ops1 ++ ops2) =
      transaction_transfers mem ops1 ++ transaction_transfers mem ops2 := by
  simp [transaction_transfers]

/-- C1: for a bus-level `transfer` with read length R and write length W —
if R < W the planner emits exactly the duplex descriptor pairing
`write[0..R]` with the whole read buffer followed by a write-only
descriptor for `write[R..]`; if R = W it emits exactly one duplex
descriptor over the full buffers; if R > W it emits exactly the duplex
descriptor pairing the full write buffer with `read[0..W]` followed by a
read-only descriptor filling `read[W..]`. -/
theorem transfer_three_way_split (mem : Mem) (r w : BufId) :
    ((mem r).length < (mem w).length →
      SpiBus.transfer mem r w =
        [SpidevTransfer.read_write (.slice w 0 (mem r).length) ⟨r, 0, (mem r).length⟩,
         SpidevTransfer.write (.slice w (mem r).length ((mem w).length - (mem r).length))]) ∧
    ((mem r).length = (mem w).length →
      SpiBus.transfer mem r w =
        [SpidevTransfer.read_write (.slice w 0 (mem w).length) ⟨r, 0, (mem r).length⟩]) ∧
    ((mem w).length < (mem r).length →
      SpiBus.transfer mem r w =
        [SpidevTransfer.read_write (.slice w 0 (mem w).length) ⟨r, 0, (mem w).length⟩,
         SpidevTransfer.read ⟨r, (mem w).length, (mem r).length - (mem w).length⟩]) := by
  refine ⟨fun h => ?_, fun h => ?_, fun h => ?_⟩ <;>
    simp only [SpiBus.transfer]
  · rw [show compare (mem r).length (mem w).length = Ordering.lt from by
      rwa [Nat.compare_eq_lt]]
  · rw [show compare (mem r).length (mem w).length = Ordering.eq from by
      rwa [Nat.compare_eq_eq]]
  · rw [show compare (mem r).length (mem w).length = Ordering.gt from by
      rwa [Nat.compare_eq_gt]]

/-- Witness for C1: the three branches at concrete buffers (lengths 3 vs 5,
3 vs 3, and 5 vs 3). -/
theorem transfer_three_way_split_witness :
    SpiBus.transfer memW 0 1 =
      [SpidevTransfer.read_write (.slice 1 0 3) ⟨0, 0, 3⟩,
       SpidevTransfer.write (.slice 1 3 2)] ∧
    SpiBus.transfer memW 0 2 =
      [SpidevTransfer.read_write (.slice 2 0 3) ⟨0, 0, 3⟩] ∧
    SpiBus.transfer memW 1 0 =
      [SpidevTransfer.read_write (.slice 0 0 3) ⟨1, 0, 3⟩,
       SpidevTransfer.read ⟨1, 3, 2⟩] :=
  ⟨(transfer_three_way_split memW 0 1).1 (by decide),
   (transfer_three_way_split memW 0 2).2.1 (by decide),
   (transfer_three_way_split memW 1 0).2.2 (by decide)⟩

/-- C6: for every pair of buffers, a `Transfer` operation inside a
transaction produces exactly the descriptor sequence of the bus-level
`transfer` entry point: the three-way length split is the same at both
entry points. -/
theorem transaction_transfer_matches_bus (mem : Mem) (r w : BufId) :
    transaction_op mem (.transfer r w) = SpiBus.transfer mem r w :=
  transaction_op_transfer_eq mem r w

/-- C3: a `DelayUs` operation produces exactly one delay descriptor; a
requested value at most 65535 is represented exactly and any larger value
saturates to 65535. -/
theorem delay_saturates (mem : Mem) (us : Nat) :
    (us ≤ 65535 → transaction_op mem (.delayUs us) = [SpidevTransfer.delay us]) ∧
    (65535 < us → transaction_op mem (.delayUs us) = [SpidevTransfer.delay 65535]) ∧
    (transaction_op mem (.delayUs us)).length = 1 := by
  refine ⟨fun h => ?_, fun h => ?_, ?_⟩
  · simp [transaction_op, u16_try_from, h]
  · simp [transaction_op, u16_try_from, Nat.not_le.mpr h]
  · simp [transaction_op]

/-- Witness for C3: a requested delay of 100 is represented as 100 and a
requested delay of 100000 as 65535. -/
theorem delay_saturates_witness :
    transaction_op memW (.delayUs 100) = [SpidevTransfer.delay 100] ∧
    transaction_op memW (.delayUs 100000) = [SpidevTransfer.delay 65535] :=
  ⟨(delay_saturates memW 100).1 (by decide),
   (delay_saturates memW 100000).2.1 (by decide)⟩

/-- C5: the transaction descriptor list is the in-order concatenation of
each operation's descriptors (each operation contiguous, in the caller's
order); in particular `[Write a, Read b, DelayUs us, Transfer c d]` yields
the write, read and delay descriptors followed by the three-way expansion
of the transfer, in that order. -/
theorem transaction_preserves_order (mem : Mem) (a b c d : BufId) (us : Nat) :
    (∀ ops1 ops2, transaction_transfers mem (ops1 ++ ops2) =
        transaction_transfers mem ops1 ++ transaction_transfers mem ops2) ∧
    transaction_transfers mem
        [.write a, .read b, .delayUs us, .transfer c d] =
      [SpidevTransfer.write (.slice a 0 (mem a).length)] ++
      [SpidevTransfer.read ⟨b, 0, (mem b).length⟩] ++
      [SpidevTransfer.delay ((u16_try_from us).getD 65535)] ++
      SpiBus.transfer mem c d := by
  refine ⟨fun ops1 ops2 => transaction_transfers_append mem ops1 ops2, ?_⟩
  rw [← transaction_op_transfer_eq mem c d]
  simp [transaction_transfers, transaction_op]

/-- C9: the number of descriptors submitted for a transaction equals the
number of operations plus the number of `Transfer` operations whose read
and write lengths differ. -/
theorem transaction_descriptor_count (mem : Mem) (ops : List SpiOperation) :
    (transaction_transfers mem ops).length = ops.length + unequalTransferCount mem ops := by
  induction ops with
  | nil => rfl
  | cons op ops ih =>
      have hsplit : transaction_transfers mem (op :: ops) =
          transaction_op mem op ++ transaction_transfers mem ops := by
        simp [transaction_transfers]
      rw [hsplit, List.length_append, ih, transaction_op_length]
      by_cases h : isUnequalTransfer mem op = true <;>
        simp [h, unequalTransferCount, List.countP_cons] <;> omega

/-- C7: every descriptor produced by the planner — by any transaction
operation and by the bus-level `transfer` and `transfer_in_place` entry
points — has at least one of its write source, read target or delay
duration populated. -/
theorem descriptors_populated (mem : Mem) (ops : List SpiOperation) (r w b : BufId) :
    (∀ d ∈ transaction_transfers mem ops, populated d = true) ∧
    (∀ d ∈ SpiBus.transfer mem r w, populated d = true) ∧
    (∀ d ∈ SpiBus.transfer_in_place mem b, populated d = true) := by
  refine ⟨?_, ?_, ?_⟩
  · intro d hd
    rw [transaction_transfers, List.mem_flatten] at hd
    obtain ⟨l, hl, hdl⟩ := hd
    obtain ⟨op, hop, rfl⟩ := List.mem_map.mp hl
    exact transaction_op_populated mem op d hdl
  · intro d hd
    rw [← transaction_op_transfer_eq mem r w] at hd
    exact transaction_op_populated mem (.transfer r w) d hd
  · intro d hd
    rw [SpiBus.transfer_in_place, List.mem_singleton] at hd
    subst hd
    simp [populated, SpidevTransfer.read_write]

/-- Witness for C7: the delay descriptor of a clamped `DelayUs 100000`
inside a one-operation transaction is populated. -/
theorem descriptors_populated_witness :
    populated (SpidevTransfer.delay 65535) = true :=
  (descriptors_populated memW [SpiOperation.delayUs 100000] 0 1 0).1
    (SpidevTransfer.delay 65535) (by decide)

/-- C4: if the transport fails the atomic submission, the transaction
returns that failure wrapped and never calls flush; the transaction
succeeds exactly when both the submission and the trailing flush
succeed. -/
theorem transaction_failure_propagation (t : Transport) (mem : Mem) (ops : List SpiOperation) :
    (∀ e, t.submit (transaction_transfers mem ops) = .error e →
      (SpiDevice.transaction t mem ops).2 = .error ⟨e⟩ ∧
      TransportCall.flush ∉ (SpiDevice.transaction t mem ops).1) ∧
    ((SpiDevice.transaction t mem ops).2 = .ok () ↔
      t.submit (transaction_transfers mem ops) = .ok () ∧ t.flushResult = .ok ()) := by
  constructor
  · intro e he
    simp [SpiDevice.transaction, he]
  · cases hs : t.submit (transaction_transfers mem ops) with
    | error e => simp [SpiDevice.transaction, hs]
    | ok u =>
        cases u
        cases hf : t.flushResult with
        | error e => simp [SpiDevice.transaction, hs, hf]
        | ok v => cases v; simp [SpiDevice.transaction, hs, hf]

/-- Witness for C4: on a transport whose submission fails with I/O error 7,
a one-operation transaction returns that error and flush is never
called. -/
theorem transaction_failure_propagation_witness :
    (SpiDevice.transaction tFail memW [SpiOperation.read 0]).2 = .error ⟨7⟩ ∧
    TransportCall.flush ∉ (SpiDevice.transaction tFail memW [SpiOperation.read 0]).1 :=
  (transaction_failure_propagation tFail memW [SpiOperation.read 0]).1 7 rfl

/-- C10: a transaction over an empty operation list still submits an empty
descriptor batch and then flushes; it succeeds exactly when both transport
calls succeed. -/
theorem empty_transaction_still_submits (t : Transport) (mem : Mem) :
    TransportCall.submit [] ∈ (SpiDevice.transaction t mem []).1 ∧
    (t.submit [] = .ok () → TransportCall.flush ∈ (SpiDevice.transaction t mem []).1) ∧
    ((SpiDevice.transaction t mem []).2 = .ok () ↔
      t.submit [] = .ok () ∧ t.flushResult = .ok ()) := by
  have h0 : transaction_transfers mem [] = [] := rfl
  refine ⟨?_, ?_, ?_⟩ <;>
    cases hs : t.submit [] with
    | error e => simp [SpiDevice.transaction, h0, hs]
    | ok u =>
        cases u
        cases hf : t.flushResult with
        | error e => simp [SpiDevice.transaction, h0, hs, hf]
        | ok v => cases v; simp [SpiDevice.transaction, h0, hs, hf]

/-- Witness for C10: on the all-success transport the empty transaction
does call flush. -/
theorem empty_transaction_still_submits_witness :
    TransportCall.flush ∈ (SpiDevice.transaction tOk memW []).1 :=
  (empty_transaction_still_submits tOk memW).2.1 rfl

/-- C8: a failed transaction returns an error that wraps exactly the
underlying transport I/O failure (available through `inner` and the error
source), and the generic classification of every `SPIError` is the opaque
`other` kind. -/
theorem error_wraps_single_io_failure (t : Transport) (mem : Mem) (ops : List SpiOperation)
    (se : SPIError) :
    ((SpiDevice.transaction t mem ops).2 = .error se →
      SPIError.kind se = ErrorKind.other ∧
      SPIError.errSource se = some (SPIError.inner se) ∧
      (t.submit (transaction_transfers mem ops) = .error (SPIError.inner se) ∨
        (t.submit (transaction_transfers mem ops) = .ok () ∧
          t.flushResult = .error (SPIError.inner se)))) ∧
    (∀ e : SPIError, SPIError.kind e = ErrorKind.other ∧
      SPIError.errSource e = some (SPIError.inner e)) := by
  refine ⟨?_, fun e => ⟨rfl, rfl⟩⟩
  intro he
  refine ⟨rfl, rfl, ?_⟩
  cases hs : t.submit (transaction_transfers mem ops) with
  | error e =>
      left
      simp only [SpiDevice.transaction, hs] at he
      cases he
      rfl
  | ok u =>
      cases u
      right
      refine ⟨rfl, ?_⟩
      cases hf : t.flushResult with
      | error e =>
          simp only [SpiDevice.transaction, hs, hf] at he
          cases he
          rfl
      | ok v =>
          cases v
          simp [SpiDevice.transaction, hs, hf] at he

/-- Witness for C8: the failing transport's error 7 is wrapped, exposed by
`inner` and the error source, and classified as `other`. -/
theorem error_wraps_single_io_failure_witness :
    SPIError.kind ⟨7⟩ = ErrorKind.other ∧
    SPIError.errSource ⟨7⟩ = some (SPIError.inner ⟨7⟩) ∧
    (tFail.submit (transaction_transfers memW []) = .error (SPIError.inner ⟨7⟩) ∨
      (tFail.submit (transaction_transfers memW []) = .ok () ∧
        tFail.flushResult = .error (SPIError.inner ⟨7⟩))) :=
  (error_wraps_single_io_failure tFail memW [] ⟨7⟩).1 rfl

/-- C2 counterexample: in a transaction, the descriptor built for
`TransferInPlace` on a 3-byte buffer does not carry an owned transmit
snapshot of the pre-call contents as its write source (it carries a
borrowed view aliasing the buffer itself, from the raw-pointer slice). -/
theorem in_place_snapshot_counterexample :
    ¬ ∀ d ∈ transaction_op memW (SpiOperation.transferInPlace 0),
        d.tx = some (TxRef.owned (memW 0)) := by
  decide

/-- C2 amended: the bus-level `transfer_in_place` uses a transmit snapshot
— an owned copy of the pre-call buffer contents — as the write source of
its single duplex descriptor over the whole buffer, so its write source
aliases no read target.  The transaction-path `TransferInPlace` uses no
snapshot: its single duplex descriptor's write source is a borrowed view of
the very buffer that is its read target (denoting the pre-call contents in
the pre-call state), so for any non-empty buffer the descriptor has
overlapping read/write regions aliasing the same memory — the descriptor
form the transport contract does not support — and no final-content
guarantee is established for that path. -/
theorem in_place_write_source (mem : Mem) (buf : BufId) :
    SpiBus.transfer_in_place mem buf =
      [SpidevTransfer.read_write (.owned (mem buf)) ⟨buf, 0, (mem buf).length⟩] ∧
    (∀ d ∈ SpiBus.transfer_in_place mem buf, txAliasesRx d = false) ∧
    transaction_op mem (.transferInPlace buf) =
      [SpidevTransfer.read_write (.slice buf 0 (mem buf).length) ⟨buf, 0, (mem buf).length⟩] ∧
    resolveTx mem (.slice buf 0 (mem buf).length) = mem buf ∧
    (0 < (mem buf).length →
      ∀ d ∈ transaction_op mem (.transferInPlace buf), txAliasesRx d = true) := by
  refine ⟨rfl, ?_, rfl, ?_, ?_⟩
  · intro d hd
    rw [SpiBus.transfer_in_place, List.mem_singleton] at hd
    subst hd
    rfl
  · simp [resolveTx, sliceOf]
  · intro h d hd
    rw [transaction_op, List.mem_singleton] at hd
    subst hd
    simp only [txAliasesRx, SpidevTransfer.read_write]
    simp [h]

/-- Witness for C2 amended: at the 3-byte buffer 0 of `memW`, the bus-level
descriptor's owned write source aliases nothing, while the transaction
descriptor's borrowed write source aliases its read target. -/
theorem in_place_write_source_witness :
    txAliasesRx (SpidevTransfer.read_write (.owned [1, 2, 3]) ⟨0, 0, 3⟩) = false ∧
    txAliasesRx (SpidevTransfer.read_write (.slice 0 0 3) ⟨0, 0, 3⟩) = true :=
  ⟨(in_place_write_source memW 0).2.1
      (SpidevTransfer.read_write (.owned [1, 2, 3]) ⟨0, 0, 3⟩) (by decide),
   (in_place_write_source memW 0).2.2.2.2 (by decide)
      (SpidevTransfer.read_write (.slice 0 0 3) ⟨0, 0, 3⟩) (by decide)⟩

end LinuxEmbeddedHal
